import Mathlib

/-!
Verification of the PEPPOL lookup client (`src/python/peppol_lookup.py`).

The development shallowly embeds the two core functions of the program:

* `sml_lookup` — derives a DNS candidate host from a participant identifier
  by MD5-hashing the key `icd:identifier` and checks its existence against a
  DNS oracle;
* `smp_lookup` — builds the SMP URL, performs an HTTP GET against an HTTP
  oracle, parses the XML body, and extracts document-type identifiers from
  `ServiceMetadataReference/@href` attributes.

Python strings are modelled as `List Char`; bytes as `List Nat` (values
below 256); the Python standard-library helpers used by the program
(`str.split`, `in`, `urllib.parse.quote` / `unquote`, `hashlib.md5`,
`xml.etree.ElementTree` search) are modelled directly below, each faithful
to the documented stdlib behaviour.
-/

abbrev Str := List Char

/-- Python substring test `sep in s` (`True` for the empty separator). -/
def pyContains (sep : Str) : Str → Bool
  | [] => sep.isEmpty
  | c :: rest => sep.isPrefixOf (c :: rest) || pyContains sep rest

/-- The part of `s` strictly before the first occurrence of `sep`
(all of `s` when `sep` does not occur). -/
def beforeFirst (sep : Str) : Str → Str
  | [] => []
  | c :: rest => if sep.isPrefixOf (c :: rest) then [] else c :: beforeFirst sep rest

/-- The part of `s` strictly after the first occurrence of `sep`
(empty when `sep` does not occur). -/
def afterFirst (sep : Str) : Str → Str
  | [] => []
  | c :: rest =>
    if sep.isPrefixOf (c :: rest) then List.drop sep.length (c :: rest)
    else afterFirst sep rest

/-- Fuel-driven splitting: cut at the first occurrence of `sep` and recurse
on the remainder.  The fuel only serves structural termination; it is
irrelevant as soon as it dominates the length of the string. -/
def pySplitAux (sep : Str) : Nat → Str → List Str
  | 0, s => [s]
  | fuel + 1, s =>
    if sep ≠ [] ∧ pyContains sep s then
      beforeFirst sep s :: pySplitAux sep fuel (afterFirst sep s)
    else [s]

/-- Python `s.split(sep)` for a nonempty separator: the list of chunks of
`s` between consecutive non-overlapping occurrences of `sep`, scanning
from the left. -/
def pySplit (sep s : Str) : List Str :=
  pySplitAux sep s.length s

/-! ### Bytes, UTF-8 and percent-encoding

Models of `str.encode()` (UTF-8 encoding), `bytes.decode('utf-8',
'replace')`, `urllib.parse.quote` (default `safe='/'`) and
`urllib.parse.unquote`, each following the documented CPython behaviour. -/

/-- Value of a hexadecimal digit character, upper or lower case. -/
def hexVal (c : Char) : Option Nat :=
  if '0' ≤ c ∧ c ≤ '9' then some (c.toNat - 48)
  else if 'A' ≤ c ∧ c ≤ 'F' then some (c.toNat - 55)
  else if 'a' ≤ c ∧ c ≤ 'f' then some (c.toNat - 87)
  else none

/-- UTF-8 encoding of a single code point (`str.encode()` per character). -/
def utf8EncodeChar (c : Char) : List Nat :=
  let n := c.toNat
  if n < 128 then [n]
  else if n < 2048 then [192 + n / 64, 128 + n % 64]
  else if n < 65536 then [224 + n / 4096, 128 + n / 64 % 64, 128 + n % 64]
  else [240 + n / 262144, 128 + n / 4096 % 64, 128 + n / 64 % 64, 128 + n % 64]

/-- UTF-8 encoding of a whole string (`str.encode()`). -/
def utf8EncodeStr (s : Str) : List Nat :=
  s.flatMap utf8EncodeChar

/-- The Unicode replacement character U+FFFD. -/
def replChar : Char := Char.ofNat 0xFFFD

/-- Continuation byte test (`0x80..0xBF`). -/
def isCont (b : Nat) : Bool := 128 ≤ b && b ≤ 191

/-- Valid second byte for a three-byte sequence with lead byte `b1`. -/
def isCont3 (b1 b2 : Nat) : Bool :=
  if b1 = 224 then 160 ≤ b2 && b2 ≤ 191
  else if b1 = 237 then 128 ≤ b2 && b2 ≤ 159
  else isCont b2

/-- Valid second byte for a four-byte sequence with lead byte `b1`. -/
def isCont4 (b1 b2 : Nat) : Bool :=
  if b1 = 240 then 144 ≤ b2 && b2 ≤ 191
  else if b1 = 244 then 128 ≤ b2 && b2 ≤ 143
  else isCont b2

/-- UTF-8 decoding with `errors='replace'` (maximal-subpart replacement),
as CPython `bytes.decode('utf-8', 'replace')`. -/
def utf8Decode : List Nat → Str
  | [] => []
  | b :: rest =>
    if b ≤ 127 then Char.ofNat b :: utf8Decode rest
    else if 194 ≤ b && b ≤ 223 then
      match rest with
      | [] => [replChar]
      | b2 :: rest2 =>
        if isCont b2 then Char.ofNat ((b - 192) * 64 + (b2 - 128)) :: utf8Decode rest2
        else replChar :: utf8Decode (b2 :: rest2)
    else if 224 ≤ b && b ≤ 239 then
      match rest with
      | [] => [replChar]
      | [b2] => if isCont3 b b2 then [replChar] else replChar :: utf8Decode [b2]
      | b2 :: b3 :: rest3 =>
        if isCont3 b b2 then
          if isCont b3 then
            Char.ofNat ((b - 224) * 4096 + (b2 - 128) * 64 + (b3 - 128)) :: utf8Decode rest3
          else replChar :: utf8Decode (b3 :: rest3)
        else replChar :: utf8Decode (b2 :: b3 :: rest3)
    else if 240 ≤ b && b ≤ 244 then
      match rest with
      | [] => [replChar]
      | [b2] => if isCont4 b b2 then [replChar] else replChar :: utf8Decode [b2]
      | [b2, b3] =>
        if isCont4 b b2 then
          if isCont b3 then [replChar] else replChar :: utf8Decode [b3]
        else replChar :: utf8Decode [b2, b3]
      | b2 :: b3 :: b4 :: rest4 =>
        if isCont4 b b2 then
          if isCont b3 then
            if isCont b4 then
              Char.ofNat ((b - 240) * 262144 + (b2 - 128) * 4096 + (b3 - 128) * 64 + (b4 - 128))
                :: utf8Decode rest4
            else replChar :: utf8Decode (b4 :: rest4)
          else replChar :: utf8Decode (b3 :: b4 :: rest4)
        else replChar :: utf8Decode (b2 :: b3 :: b4 :: rest4)
    else replChar :: utf8Decode rest

/-- One scanning pass of `urllib.parse.unquote`: literal characters stay
characters, `%xx` escapes with two hexadecimal digits become bytes, a `%`
not followed by two hexadecimal digits stays literal. -/
def unquoteItems : Str → List (Char ⊕ Nat)
  | [] => []
  | '%' :: h1 :: h2 :: rest2 =>
    match hexVal h1, hexVal h2 with
    | some a, some b => Sum.inr (16 * a + b) :: unquoteItems rest2
    | _, _ => Sum.inl '%' :: unquoteItems (h1 :: h2 :: rest2)
  | c :: rest => Sum.inl c :: unquoteItems rest

/-- Second pass of `unquote`: each maximal run of decoded bytes is decoded
as UTF-8 with replacement; literal characters pass through.  The first
argument accumulates the current byte run in reverse. -/
def unquoteAssemble : List Nat → List (Char ⊕ Nat) → Str
  | pend, [] => utf8Decode pend.reverse
  | pend, Sum.inl c :: rest => utf8Decode pend.reverse ++ c :: unquoteAssemble [] rest
  | pend, Sum.inr b :: rest => unquoteAssemble (b :: pend) rest

/-- `urllib.parse.unquote` with the default UTF-8 / replace policy. -/
def unquote (s : Str) : Str :=
  unquoteAssemble [] (unquoteItems s)

/-- Characters `urllib.parse.quote` leaves unescaped with the default
`safe='/'`: ASCII letters, digits, `_`, `.`, `-`, `~` and `/`. -/
def quoteSafe (c : Char) : Bool :=
  ('A' ≤ c && c ≤ 'Z') || ('a' ≤ c && c ≤ 'z') || ('0' ≤ c && c ≤ '9') ||
    c = '_' || c = '.' || c = '-' || c = '~' || c = '/'

/-- Upper-case hexadecimal digit of a value below 16. -/
def hexUpperDigit (n : Nat) : Char :=
  if n < 10 then Char.ofNat (48 + n) else Char.ofNat (55 + n)

/-- Lower-case hexadecimal digit of a value below 16. -/
def hexLowerDigit (n : Nat) : Char :=
  if n < 10 then Char.ofNat (48 + n) else Char.ofNat (87 + n)

/-- `urllib.parse.quote(s)` with the default `safe='/'`: safe characters
pass through, every other character is UTF-8 encoded and each byte is
rendered as `%XX` with upper-case hexadecimal digits. -/
def pyQuote (s : Str) : Str :=
  s.flatMap fun c =>
    if quoteSafe c then [c]
    else (utf8EncodeChar c).flatMap fun b => ['%', hexUpperDigit (b / 16), hexUpperDigit (b % 16)]

/-! ### MD5 (`hashlib.md5`)

The MD5 digest per RFC 1321, over byte lists, with 32-bit words as natural
numbers reduced modulo `2 ^ 32`. -/

/-- Truncation to a 32-bit word. -/
def w32 (n : Nat) : Nat := n % 4294967296

/-- Left rotation of a 32-bit word (argument below `2 ^ 32`). -/
def rotl32 (x s : Nat) : Nat := w32 (x <<< s) ||| x >>> (32 - s)

/-- The 64 sine-derived MD5 round constants of RFC 1321. -/
def md5K : List Nat :=
  [0xd76aa478, 0xe8c7b756, 0x242070db, 0xc1bdceee,
   0xf57c0faf, 0x4787c62a, 0xa8304613, 0xfd469501,
   0x698098d8, 0x8b44f7af, 0xffff5bb1, 0x895cd7be,
   0x6b901122, 0xfd987193, 0xa679438e, 0x49b40821,
   0xf61e2562, 0xc040b340, 0x265e5a51, 0xe9b6c7aa,
   0xd62f105d, 0x02441453, 0xd8a1e681, 0xe7d3fbc8,
   0x21e1cde6, 0xc33707d6, 0xf4d50d87, 0x455a14ed,
   0xa9e3e905, 0xfcefa3f8, 0x676f02d9, 0x8d2a4c8a,
   0xfffa3942, 0x8771f681, 0x6d9d6122, 0xfde5380c,
   0xa4beea44, 0x4bdecfa9, 0xf6bb4b60, 0xbebfbc70,
   0x289b7ec6, 0xeaa127fa, 0xd4ef3085, 0x04881d05,
   0xd9d4d039, 0xe6db99e5, 0x1fa27cf8, 0xc4ac5665,
   0xf4292244, 0x432aff97, 0xab9423a7, 0xfc93a039,
   0x655b59c3, 0x8f0ccc92, 0xffeff47d, 0x85845dd1,
   0x6fa87e4f, 0xfe2ce6e0, 0xa3014314, 0x4e0811a1,
   0xf7537e82, 0xbd3af235, 0x2ad7d2bb, 0xeb86d391]

/-- The 64 per-round left-rotation amounts of RFC 1321. -/
def md5S : List Nat :=
  [7, 12, 17, 22, 7, 12, 17, 22, 7, 12, 17, 22, 7, 12, 17, 22,
   5, 9, 14, 20, 5, 9, 14, 20, 5, 9, 14, 20, 5, 9, 14, 20,
   4, 11, 16, 23, 4, 11, 16, 23, 4, 11, 16, 23, 4, 11, 16, 23,
   6, 10, 15, 21, 6, 10, 15, 21, 6, 10, 15, 21, 6, 10, 15, 21]

/-- The nonlinear mixing function of round `i`. -/
def md5F (i b c d : Nat) : Nat :=
  if i < 16 then b &&& c ||| (b ^^^ 4294967295) &&& d
  else if i < 32 then d &&& b ||| (d ^^^ 4294967295) &&& c
  else if i < 48 then b ^^^ c ^^^ d
  else c ^^^ (b ||| (d ^^^ 4294967295))

/-- The message-word index used in round `i`. -/
def md5G (i : Nat) : Nat :=
  if i < 16 then i
  else if i < 32 then (5 * i + 1) % 16
  else if i < 48 then (3 * i + 5) % 16
  else 7 * i % 16

/-- Little-endian 32-bit word `g` of a 64-byte block. -/
def md5Word (block : List Nat) (g : Nat) : Nat :=
  block.getD (4 * g) 0 + 256 * block.getD (4 * g + 1) 0 +
    65536 * block.getD (4 * g + 2) 0 + 16777216 * block.getD (4 * g + 3) 0

/-- One MD5 round on the state `(a, b, c, d)`. -/
def md5Step (block : List Nat) (st : Nat × Nat × Nat × Nat) (i : Nat) :
    Nat × Nat × Nat × Nat :=
  let (a, b, c, d) := st
  let f := w32 (md5F i b c d + a + md5K.getD i 0 + md5Word block (md5G i))
  (d, w32 (b + rotl32 f (md5S.getD i 0)), b, c)

/-- Processing of one 64-byte block: 64 rounds, then the Davies-Meyer
feed-forward addition. -/
def md5Compress (st : Nat × Nat × Nat × Nat) (block : List Nat) :
    Nat × Nat × Nat × Nat :=
  let (a, b, c, d) := (List.range 64).foldl (md5Step block) st
  (w32 (st.1 + a), w32 (st.2.1 + b), w32 (st.2.2.1 + c), w32 (st.2.2.2 + d))

/-- `k` little-endian bytes of `n`. -/
def leBytes : Nat → Nat → List Nat
  | 0, _ => []
  | k + 1, n => n % 256 :: leBytes k (n / 256)

/-- MD5 padding: a `0x80` byte, zero bytes up to 56 modulo 64, then the
message bit length as a little-endian 64-bit value. -/
def md5Pad (msg : List Nat) : List Nat :=
  let len := msg.length
  msg ++ 128 :: List.replicate ((120 - (len + 1) % 64) % 64) 0 ++
    leBytes 8 (8 * len % 18446744073709551616)

/-- Fold `md5Compress` over the 64-byte blocks of `bytes`; the fuel is the
number of blocks. -/
def md5BlocksAux : Nat → Nat × Nat × Nat × Nat → List Nat → Nat × Nat × Nat × Nat
  | 0, st, _ => st
  | fuel + 1, st, bytes => md5BlocksAux fuel (md5Compress st (bytes.take 64)) (bytes.drop 64)

/-- The 16-byte MD5 digest of a byte message (`hashlib.md5(msg).digest()`). -/
def md5Bytes (msg : List Nat) : List Nat :=
  let padded := md5Pad msg
  let st := md5BlocksAux (padded.length / 64)
    (0x67452301, 0xefcdab89, 0x98badcfe, 0x10325476) padded
  leBytes 4 st.1 ++ leBytes 4 st.2.1 ++ leBytes 4 st.2.2.1 ++ leBytes 4 st.2.2.2

/-- Lower-case hexadecimal rendering of a byte list. -/
def bytesToHexLower (bs : List Nat) : Str :=
  bs.flatMap fun b => [hexLowerDigit (b / 16), hexLowerDigit (b % 16)]

/-- `hashlib.md5(msg).hexdigest()`: the digest rendered as lower-case
hexadecimal. -/
def md5Hexdigest (msg : List Nat) : Str :=
  bytesToHexLower (md5Bytes msg)

/-! ### XML documents (`xml.etree.ElementTree`)

A parsed XML document is a tree of elements; `ElementTree` stores the tag
of a namespaced element as `\x7buri\x7dlocal`, keeps attributes on each
element, and `findall(".//tag", ns)` returns all strict descendants with
the expanded tag, in document order (preorder). -/

inductive XmlElem where
  | elem (tag : Str) (attrs : List (Str × Str)) (children : List XmlElem)

def XmlElem.tag : XmlElem → Str
  | .elem t _ _ => t

def XmlElem.attrs : XmlElem → List (Str × Str)
  | .elem _ a _ => a

/-- Attribute lookup; `none` when the attribute is absent. -/
def XmlElem.attr (e : XmlElem) (key : Str) : Option Str :=
  (e.attrs.find? fun p => p.1 == key).map Prod.snd

/-- Python `Element.get(key, default)`. -/
def XmlElem.getAttrD (e : XmlElem) (key default : Str) : Str :=
  (e.attr key).getD default

mutual

/-- All strict descendants of an element, in document order. -/
def descendants : XmlElem → List XmlElem
  | .elem _ _ cs => descendantsList cs

/-- Concatenation of `e :: descendants e` over a forest, in order. -/
def descendantsList : List XmlElem → List XmlElem
  | [] => []
  | e :: es => e :: (descendants e ++ descendantsList es)

end

/-- The expanded `ElementTree` tag of `ns3:ServiceMetadataReference` in the
namespace `http://busdox.org/serviceMetadata/publishing/1.0/`. -/
def smrTag : Str :=
  "\x7bhttp://busdox.org/serviceMetadata/publishing/1.0/\x7dServiceMetadataReference".data

/-- `root.findall(".//ns3:ServiceMetadataReference", ns)` — all strict
descendants carrying the expanded tag, in document order. -/
def findallSMR (root : XmlElem) : List XmlElem :=
  (descendants root).filter fun e => e.tag == smrTag

/-! ### The Capability Fetcher (`smp_lookup`) -/

/-- The literal marker searched for inside decoded href values. -/
def markerStr : Str := "busdox-docid-qns::".data

/-- Document-type extraction of line 94 of the source:
`decoded_href.split('busdox-docid-qns::')[1].split('#')[0]`.
(Line 92 computes a value that line 94 immediately overwrites, so only
line 94 is observable.) -/
def extractDocType (decoded_href : Str) : Str :=
  (pySplit ['#'] ((pySplit markerStr decoded_href).getD 1 [])).getD 0 []

/-- The body of the `for ref in refs` loop applied to one element: the
entry it appends, if any. -/
def elemDocType (ref : XmlElem) : Option Str :=
  let href := ref.getAttrD "href".data []
  let decoded_href := unquote href
  if pyContains markerStr decoded_href then some (extractDocType decoded_href)
  else none

/-- One iteration of the `for ref in refs` loop of `smp_lookup`:
`document_types.append(parts)` exactly when the decoded href contains the
marker. -/
def loopStep (document_types : List Str) (ref : XmlElem) : List Str :=
  let href := ref.getAttrD "href".data []
  let decoded_href := unquote href
  if pyContains markerStr decoded_href then
    document_types ++ [extractDocType decoded_href]
  else document_types

/-- The `for ref in refs` loop of `smp_lookup`, accumulating
`document_types` by appending in iteration order. -/
def docTypesLoop (refs : List XmlElem) : List Str :=
  refs.foldl loopStep []

/-- Outcome of `ET.fromstring(xml_data)` on the raw body bytes (the parser
honours an XML encoding declaration, so this is independent of whether the
bytes are UTF-8). -/
inductive XmlParseOutcome where
  | wellFormed (root : XmlElem)
  | malformed

/-- A 2xx response body, characterised by the two independent facts the
program observes about it: whether `xml_data.decode()` — the strict UTF-8
decode of the debug print on line 72 — succeeds, and what
`ET.fromstring(xml_data)` yields on the raw bytes.  A body may be
well-formed XML (say, iso-8859-1 with a declaration) without being
UTF-8-decodable. -/
structure HttpBody where
  utf8Decodable : Bool
  parse : XmlParseOutcome

/-- Outcome of `urlopen(url)` followed by reading the body: a 2xx response
carrying a body, a non-2xx status (raising `HTTPError`, a subclass of
`URLError`), or a transport failure (raising `URLError`). -/
inductive HttpOutcome where
  | response2xx (body : HttpBody)
  | statusError (code : Nat)
  | transportFailure (msg : Str)

/-- The cause carried by a fetch failure. -/
inductive UrlErrorCause where
  | httpStatus (code : Nat)
  | transport (msg : Str)
deriving DecidableEq

/-- Failures of `smp_lookup`: the `except URLError` handler re-raises a
fetch error carrying the cause; the strict decode of line 72 raises
`UnicodeDecodeError` uncaught (it is not a `URLError`); a body that
decodes but does not parse raises `ParseError` uncaught. -/
inductive SmpError where
  | fetchError (cause : UrlErrorCause)
  | unicodeDecodeError
  | parseError
deriving DecidableEq

/-- `smp_lookup(smp_hostname, icd, identifier)` against an HTTP oracle
mapping each URL to its outcome.  Inside the `try` block the order of
effects is that of the source: `urlopen` (whose `URLError` is caught and
re-raised as a fetch error), then the strict UTF-8 decode of the debug
print on line 72 (whose `UnicodeDecodeError` escapes), then
`ET.fromstring` (whose `ParseError` escapes). -/
def smp_lookup (http : Str → HttpOutcome) (smp_hostname icd identifier : Str) :
    Except SmpError (List Str) :=
  let participant_id := icd ++ ":".data ++ identifier
  let url := "http://".data ++ smp_hostname ++ "/iso6523-actorid-upis::".data ++
    pyQuote participant_id
  match http url with
  | .statusError code => .error (.fetchError (.httpStatus code))
  | .transportFailure msg => .error (.fetchError (.transport msg))
  | .response2xx body =>
    if body.utf8Decodable then
      match body.parse with
      | .malformed => .error .parseError
      | .wellFormed root => .ok (docTypesLoop (findallSMR root))
    else .error .unicodeDecodeError

/-! ### The Locator Resolver (`sml_lookup`) -/

/-- Outcome of `socket.getaddrinfo(hostname, None)`: success, a
`socket.gaierror` for a nonexistent name, a `socket.gaierror` for a
transient resolver failure, or any other exception. -/
inductive DnsOutcome where
  | success
  | gaiNameNotFound
  | gaiTransient
  | otherException (msg : Str)

/-- An exception escaping `sml_lookup` (anything but `socket.gaierror`). -/
inductive SmlError where
  | uncaught (msg : Str)
deriving DecidableEq

/-- `sml_lookup(icd, identifier, sml_domain)` against a DNS oracle mapping
each hostname to its resolution outcome.  Only `socket.gaierror` is
caught and turned into `None`. -/
def sml_lookup (dns : Str → DnsOutcome) (icd identifier : Str)
    (sml_domain : Str := "edelivery.tech.ec.europa.eu".data) :
    Except SmlError (Option Str) :=
  let md5_hash := md5Hexdigest (utf8EncodeStr (icd ++ ":".data ++ identifier))
  let hostname := "b-".data ++ md5_hash ++ ".iso6523-actorid-upis.".data ++ sml_domain
  match dns hostname with
  | .success => .ok (some hostname)
  | .gaiNameNotFound => .ok none
  | .gaiTransient => .ok none
  | .otherException msg => .error (.uncaught msg)

/-! ### Definitions taken from the words of the specification -/

/-- Spec, §4.1: the canonical key string, scheme-id and value joined by a
single colon. -/
def specKey (scheme_id value : Str) : Str :=
  scheme_id ++ ":".data ++ value

/-- Spec, §4.1: the MD5 digest of the UTF-8 bytes of the key, rendered as
lower-case hexadecimal. -/
def specDigest (key : Str) : Str :=
  md5Hexdigest (utf8EncodeStr key)

/-- Spec, §4.1: the candidate host
`b-{hex_digest}.iso6523-actorid-upis.{domain}`. -/
def specCandidateHost (scheme_id value domain : Str) : Str :=
  "b-".data ++ specDigest (specKey scheme_id value) ++
    ".iso6523-actorid-upis.".data ++ domain

/-- Spec, §4.2: the target URL
`http://{host}/iso6523-actorid-upis::{percent_encoded_key}`. -/
def specSmpUrl (host scheme_id value : Str) : Str :=
  "http://".data ++ host ++ "/iso6523-actorid-upis::".data ++
    pyQuote (specKey scheme_id value)

/-- Spec, §4.2: everything after the marker, up to and excluding the first
`#`, or the remainder of the string when no `#` is present. -/
def specDocTypeOfHref (h : Str) : Str :=
  (afterFirst markerStr h).takeWhile fun c => c != '#'

/-- `IsDesc e root`: the element `e` occurs strictly below `root`, at any
depth.  This is the specification-side notion of "matching element at any
depth" used to characterise `findallSMR`. -/
inductive IsDesc : XmlElem → XmlElem → Prop where
  | child {t : Str} {a : List (Str × Str)} {cs : List XmlElem} {e : XmlElem} :
      e ∈ cs → IsDesc e (.elem t a cs)
  | nest {t : Str} {a : List (Str × Str)} {cs : List XmlElem} {e c : XmlElem} :
      c ∈ cs → IsDesc e c → IsDesc e (.elem t a cs)

/-! ### Properties of the splitting primitives -/

lemma pyContains_nil_of_ne (sep : Str) (hsep : sep ≠ []) : pyContains sep [] = false := by
  simp [pyContains, List.isEmpty_iff, hsep]

lemma afterFirst_length_lt (sep : Str) (hsep : sep ≠ []) :
    ∀ s : Str, pyContains sep s = true → (afterFirst sep s).length < s.length := by
  intro s
  induction s with
  | nil => simp [pyContains_nil_of_ne sep hsep]
  | cons c rest ih =>
    intro hc
    by_cases hp : sep.isPrefixOf (c :: rest)
    · have hlen : 0 < sep.length := List.length_pos.mpr hsep
      simp only [afterFirst, hp, if_true, List.length_drop, List.length_cons]
      omega
    · simp only [pyContains, hp, Bool.false_or] at hc
      simp only [afterFirst, hp, if_false, List.length_cons]
      exact Nat.lt_succ_of_lt (ih hc)

lemma pySplitAux_fuel_irrel (sep : Str) (hsep : sep ≠ []) :
    ∀ f₁ : Nat, ∀ f₂ : Nat, ∀ s : Str, s.length ≤ f₁ → s.length ≤ f₂ →
      pySplitAux sep f₁ s = pySplitAux sep f₂ s := by
  intro f₁
  induction f₁ with
  | zero =>
    intro f₂ s h₁ h₂
    have hs : s = [] := List.eq_nil_of_length_eq_zero (Nat.le_zero.mp h₁)
    subst hs
    cases f₂ with
    | zero => rfl
    | succ f => simp [pySplitAux, pyContains_nil_of_ne sep hsep]
  | succ f₁ ih =>
    intro f₂ s h₁ h₂
    cases f₂ with
    | zero =>
      have hs : s = [] := List.eq_nil_of_length_eq_zero (Nat.le_zero.mp h₂)
      subst hs
      simp [pySplitAux, pyContains_nil_of_ne sep hsep]
    | succ f₂ =>
      simp only [pySplitAux]
      by_cases hc : sep ≠ [] ∧ pyContains sep s
      · simp only [hc, if_true]
        have hlt := afterFirst_length_lt sep hsep s hc.2
        have := ih f₂ (afterFirst sep s) (by omega) (by omega)
        rw [this]
      · simp [hc]

/-- Unfolding equation for `pySplit`, independent of the fuel. -/
lemma pySplit_eq (sep : Str) (hsep : sep ≠ []) (s : Str) :
    pySplit sep s =
      if pyContains sep s then
        beforeFirst sep s :: pySplit sep (afterFirst sep s)
      else [s] := by
  unfold pySplit
  cases hs : s.length with
  | zero =>
    have hnil : s = [] := List.eq_nil_of_length_eq_zero hs
    subst hnil
    simp [pySplitAux, pyContains_nil_of_ne sep hsep]
  | succ n =>
    simp only [pySplitAux]
    by_cases hc : pyContains sep s
    · simp only [hsep, hc, and_true, ne_eq, not_false_eq_true, if_true, true_and]
      have hlt := afterFirst_length_lt sep hsep s hc
      have heq := pySplitAux_fuel_irrel sep hsep n (afterFirst sep s).length
        (afterFirst sep s) (by omega) (le_refl _)
      simp only [hc, if_true, heq]
    · simp [hc]

lemma beforeFirst_of_not_contains (sep : Str) :
    ∀ s : Str, pyContains sep s = false → beforeFirst sep s = s := by
  intro s
  induction s with
  | nil => intro _; rfl
  | cons c rest ih =>
    intro hc
    simp only [pyContains, Bool.or_eq_false_iff] at hc
    simp only [beforeFirst, hc.1, Bool.false_eq_true, if_false]
    rw [ih hc.2]

/-- For a one-character separator, the chunk before the first occurrence is
exactly the longest initial run of characters different from it. -/
lemma beforeFirst_singleton (ch : Char) :
    ∀ s : Str, beforeFirst [ch] s = s.takeWhile (fun c => c != ch) := by
  intro s
  induction s with
  | nil => rfl
  | cons c rest ih =>
    by_cases h : c = ch
    · subst h
      have hp : List.isPrefixOf [c] (c :: rest) = true := by
        simp [List.isPrefixOf]
      simp [beforeFirst, hp, List.takeWhile]
    · have hp : List.isPrefixOf [ch] (c :: rest) = false := by
        simp [List.isPrefixOf]
        intro hq
        exact absurd hq.symm h
      simp only [beforeFirst, hp, Bool.false_eq_true, if_false, List.takeWhile]
      have : (c != ch) = true := by simp [h]
      rw [this, ih]

/-- The head of a Python split is always the chunk before the first
occurrence of the separator. -/
lemma pySplit_getD_zero (sep : Str) (hsep : sep ≠ []) (s : Str) :
    (pySplit sep s).getD 0 [] = beforeFirst sep s := by
  rw [pySplit_eq sep hsep s]
  by_cases hc : pyContains sep s
  · simp [hc]
  · simp only [hc, Bool.false_eq_true, if_false, List.getD]
    simp [beforeFirst_of_not_contains sep s (by simpa using hc)]

/-- When the separator occurs exactly once, the second chunk of the split
is everything after that occurrence. -/
lemma pySplit_getD_one (sep : Str) (hsep : sep ≠ []) (s : Str)
    (hc : pyContains sep s = true)
    (hno : pyContains sep (afterFirst sep s) = false) :
    (pySplit sep s).getD 1 [] = afterFirst sep s := by
  rw [pySplit_eq sep hsep s]
  simp only [hc, if_true]
  rw [pySplit_eq sep hsep (afterFirst sep s)]
  simp [hno]

lemma mem_takeWhile_ne (ch : Char) (s : Str) :
    ∀ c ∈ s.takeWhile (fun c => c != ch), c ≠ ch := by
  intro c hmem
  have := List.takeWhile_subset (l := s) (p := fun c => c != ch)
  have hp := List.mem_takeWhile_imp hmem
  simpa using hp

lemma pySplit_getD_one_eq (sep : Str) (hsep : sep ≠ []) (s : Str)
    (hc : pyContains sep s = true) :
    (pySplit sep s).getD 1 [] = beforeFirst sep (afterFirst sep s) := by
  rw [pySplit_eq sep hsep s]
  simp only [hc, if_true, List.getD_cons_succ]
  exact pySplit_getD_zero sep hsep _

/-- Line 94 of the source in closed form: the second marker chunk,
truncated at the first hash character. -/
lemma extractDocType_eq (h : Str) :
    extractDocType h =
      ((pySplit markerStr h).getD 1 []).takeWhile (fun c => c != '#') := by
  unfold extractDocType
  rw [pySplit_getD_zero ['#'] (by simp) _, beforeFirst_singleton]

lemma not_hash_mem_extractDocType (h : Str) : '#' ∉ extractDocType h := by
  rw [extractDocType_eq]
  intro hmem
  exact mem_takeWhile_ne '#' _ '#' hmem rfl

lemma markerStr_ne_nil : markerStr ≠ [] := by decide

/-- When the marker occurs exactly once, line 94 computes exactly the
specification text: everything after the marker, truncated at the first
hash character. -/
lemma extractDocType_of_single_marker (h : Str)
    (hc : pyContains markerStr h = true)
    (hno : pyContains markerStr (afterFirst markerStr h) = false) :
    extractDocType h = specDocTypeOfHref h := by
  rw [extractDocType_eq, pySplit_getD_one_eq markerStr markerStr_ne_nil h hc,
    beforeFirst_of_not_contains markerStr (afterFirst markerStr h) hno]
  rfl

/-! ### Properties of the extraction loop -/

lemma loopStep_eq (acc : List Str) (ref : XmlElem) :
    loopStep acc ref = acc ++ (elemDocType ref).toList := by
  unfold loopStep elemDocType
  by_cases hc : pyContains markerStr (unquote (ref.getAttrD "href".data []))
  · simp [hc]
  · simp [hc]

lemma foldl_loopStep (refs : List XmlElem) :
    ∀ acc : List Str, refs.foldl loopStep acc = acc ++ refs.filterMap elemDocType := by
  induction refs with
  | nil => intro acc; simp
  | cons e es ih =>
    intro acc
    rw [List.foldl_cons, ih, loopStep_eq, List.filterMap_cons]
    cases hd : elemDocType e <;> simp

lemma docTypesLoop_eq_filterMap (refs : List XmlElem) :
    docTypesLoop refs = refs.filterMap elemDocType := by
  unfold docTypesLoop
  rw [foldl_loopStep]
  simp

lemma elemDocType_of_attr_none (ref : XmlElem)
    (h : ref.attr "href".data = none) : elemDocType ref = none := by
  unfold elemDocType XmlElem.getAttrD
  rw [h]
  decide

lemma elemDocType_of_no_marker (ref : XmlElem)
    (h : pyContains markerStr (unquote (ref.getAttrD "href".data [])) = false) :
    elemDocType ref = none := by
  unfold elemDocType
  simp [h]

lemma docTypesLoop_skip (pre post : List XmlElem) (e : XmlElem)
    (he : elemDocType e = none) :
    docTypesLoop (pre ++ e :: post) = docTypesLoop (pre ++ post) := by
  rw [docTypesLoop_eq_filterMap, docTypesLoop_eq_filterMap,
    List.filterMap_append, List.filterMap_append, List.filterMap_cons, he]

/-! ### Properties of the descendant search -/

lemma sizeOf_child_lt {t : Str} {a : List (Str × Str)} {cs : List XmlElem}
    {c : XmlElem} (hc : c ∈ cs) : sizeOf c < sizeOf (XmlElem.elem t a cs) := by
  have h1 := List.sizeOf_lt_of_mem hc
  have h2 : sizeOf (XmlElem.elem t a cs) = 1 + sizeOf t + sizeOf a + sizeOf cs :=
    XmlElem.elem.sizeOf_spec t a cs
  omega

lemma mem_descendantsList (cs : List XmlElem) (e : XmlElem) :
    e ∈ descendantsList cs ↔ ∃ d ∈ cs, e = d ∨ e ∈ descendants d := by
  induction cs with
  | nil => simp [descendantsList]
  | cons x xs ih =>
    simp only [descendantsList, List.mem_cons, List.mem_append, ih]
    constructor
    · rintro (rfl | hmem | ⟨d, hd, hor⟩)
      · exact ⟨_, Or.inl rfl, Or.inl rfl⟩
      · exact ⟨x, Or.inl rfl, Or.inr hmem⟩
      · exact ⟨d, Or.inr hd, hor⟩
    · rintro ⟨d, rfl | hd, hor⟩
      · rcases hor with rfl | hmem
        · exact Or.inl rfl
        · exact Or.inr (Or.inl hmem)
      · exact Or.inr (Or.inr ⟨d, hd, hor⟩)

lemma mem_descendants_iff (root e : XmlElem) :
    e ∈ descendants root ↔ IsDesc e root := by
  suffices H : ∀ n : Nat, ∀ root : XmlElem, sizeOf root ≤ n →
      ∀ e : XmlElem, (e ∈ descendants root ↔ IsDesc e root) by
    exact H (sizeOf root) root le_rfl e
  intro n
  induction n with
  | zero =>
    intro root hle
    cases root with
    | elem t a cs =>
      have := XmlElem.elem.sizeOf_spec t a cs
      omega
  | succ n ih =>
    intro root hle e
    cases root with
    | elem t a cs =>
      have hsz := XmlElem.elem.sizeOf_spec t a cs
      rw [show descendants (.elem t a cs) = descendantsList cs from rfl,
        mem_descendantsList]
      constructor
      · rintro ⟨c, hcmem, rfl | hdesc⟩
        · exact IsDesc.child hcmem
        · have hlt := sizeOf_child_lt (t := t) (a := a) hcmem
          exact IsDesc.nest hcmem ((ih c (by omega) e).mp hdesc)
      · intro hd
        cases hd with
        | child hmem => exact ⟨e, hmem, Or.inl rfl⟩
        | nest hcmem hdesc =>
          rename_i c
          have hlt := sizeOf_child_lt (t := t) (a := a) hcmem
          exact ⟨c, hcmem, Or.inr ((ih c (by omega) e).mpr hdesc)⟩

lemma mem_findallSMR (root e : XmlElem) :
    e ∈ findallSMR root ↔ IsDesc e root ∧ e.tag = smrTag := by
  unfold findallSMR
  rw [List.mem_filter, mem_descendants_iff]
  simp

/-! ### Case analyses of the two lookups -/

/-- `sml_lookup` in closed form: probe the DNS oracle at the candidate
host, and translate the outcome. -/
lemma sml_lookup_cases (dns : Str → DnsOutcome) (s v d : Str) :
    sml_lookup dns s v d =
      match dns (specCandidateHost s v d) with
      | .success => .ok (some (specCandidateHost s v d))
      | .gaiNameNotFound => .ok none
      | .gaiTransient => .ok none
      | .otherException msg => .error (.uncaught msg) := rfl

lemma sml_lookup_ok_some (dns : Str → DnsOutcome) (s v d hres : Str)
    (h : sml_lookup dns s v d = .ok (some hres)) :
    hres = specCandidateHost s v d := by
  rw [sml_lookup_cases] at h
  cases hdns : dns (specCandidateHost s v d) <;> rw [hdns] at h <;> simp_all

/-- `smp_lookup` in closed form: probe the HTTP oracle at the target URL,
and translate the outcome. -/
lemma smp_lookup_cases (http : Str → HttpOutcome) (host s v : Str) :
    smp_lookup http host s v =
      match http (specSmpUrl host s v) with
      | .statusError code => .error (.fetchError (.httpStatus code))
      | .transportFailure msg => .error (.fetchError (.transport msg))
      | .response2xx body =>
        if body.utf8Decodable then
          match body.parse with
          | .malformed => .error .parseError
          | .wellFormed root => .ok (docTypesLoop (findallSMR root))
        else .error .unicodeDecodeError := rfl

/-! ### Properties of percent-encoding -/

lemma char_toNat_lt (c : Char) : c.toNat < 1114112 := by
  have h := c.valid
  have h2 : c.toNat = c.val.toNat := rfl
  rcases h with h | h <;> omega

lemma toNat_ofNat_of_valid {m : Nat} (h : m < 55296) : (Char.ofNat m).toNat = m := by
  unfold Char.ofNat Char.toNat
  have hv : Nat.isValidChar m := Or.inl h
  simp [Char.ofNatAux, hv, UInt32.toNat, BitVec.toNat_ofNatLt]

lemma hexUpperDigit_ne_colon {n : Nat} (h : n < 16) : hexUpperDigit n ≠ ':' := by
  unfold hexUpperDigit
  have hcolon : (':' : Char).toNat = 58 := rfl
  split
  · intro hc
    have := congrArg Char.toNat hc
    rw [toNat_ofNat_of_valid (by omega), hcolon] at this
    omega
  · intro hc
    have := congrArg Char.toNat hc
    rw [toNat_ofNat_of_valid (by omega), hcolon] at this
    omega

lemma utf8EncodeChar_lt_256 (c : Char) : ∀ b ∈ utf8EncodeChar c, b < 256 := by
  have hb := char_toNat_lt c
  intro b hmem
  simp only [utf8EncodeChar] at hmem
  split_ifs at hmem
  · simp only [List.mem_singleton] at hmem
    omega
  · simp only [List.mem_cons, List.not_mem_nil, or_false] at hmem
    rcases hmem with rfl | rfl <;> omega
  · simp only [List.mem_cons, List.not_mem_nil, or_false] at hmem
    rcases hmem with rfl | rfl | rfl <;> omega
  · simp only [List.mem_cons, List.not_mem_nil, or_false] at hmem
    rcases hmem with rfl | rfl | rfl | rfl <;> omega

lemma colon_not_mem_pyQuote (k : Str) : ':' ∉ pyQuote k := by
  unfold pyQuote
  intro hmem
  rw [List.mem_flatMap] at hmem
  obtain ⟨c, hc, hmem⟩ := hmem
  by_cases hsafe : quoteSafe c
  · simp only [hsafe, if_true, List.mem_singleton] at hmem
    subst hmem
    exact absurd hsafe (by decide)
  · simp only [hsafe, Bool.false_eq_true, if_false, List.mem_flatMap] at hmem
    obtain ⟨b, hb, hmem⟩ := hmem
    have hlt := utf8EncodeChar_lt_256 c b hb
    simp only [List.mem_cons, List.not_mem_nil, or_false] at hmem
    rcases hmem with hq | hq | hq
    · exact absurd hq.symm (by decide)
    · exact hexUpperDigit_ne_colon (by omega) hq.symm
    · exact hexUpperDigit_ne_colon (by omega) hq.symm

/-! ### Extraction at the boundary of the marker -/

lemma beforeFirst_cons_ne (s0 : Char) (sep : Str) (c : Char) (t : Str) (h : s0 ≠ c) :
    beforeFirst (s0 :: sep) (c :: t) = c :: beforeFirst (s0 :: sep) t := by
  have hp : (s0 :: sep).isPrefixOf (c :: t) = false := by
    simp [List.isPrefixOf]
    intro he
    exact absurd he h
  simp [beforeFirst, hp]

lemma extractDocType_empty_cases (h : Str) (hc : pyContains markerStr h = true)
    (hcase : afterFirst markerStr h = [] ∨ (afterFirst markerStr h).head? = some '#') :
    extractDocType h = [] := by
  rw [extractDocType_eq, pySplit_getD_one_eq markerStr markerStr_ne_nil h hc]
  rcases hcase with hnil | hhead
  · rw [hnil]
    rfl
  · cases haf : afterFirst markerStr h with
    | nil => rw [haf] at hhead; simp at hhead
    | cons c t =>
      rw [haf] at hhead
      simp only [List.head?_cons, Option.some.injEq] at hhead
      subst hhead
      have hm : markerStr = 'b' :: "usdox-docid-qns::".data := rfl
      rw [hm, beforeFirst_cons_ne _ _ _ _ (by decide)]
      simp [List.takeWhile]

lemma not_hash_of_elemDocType_some (e : XmlElem) (x : Str)
    (he : elemDocType e = some x) : '#' ∉ x := by
  unfold elemDocType at he
  by_cases hcond : pyContains markerStr (unquote (e.getAttrD "href".data []))
  · simp only [hcond, if_true, Option.some.injEq] at he
    subst he
    exact not_hash_mem_extractDocType _
  · simp [hcond] at he

/-! ### The claims -/

set_option maxRecDepth 100000

/-- Claim C1: for every scheme-id `s`, value `v` and domain `d`, the
candidate host that the resolver constructs — the one it returns on
success — is exactly `b-` followed by the lower-case hexadecimal MD5
digest of the UTF-8 bytes of the key `s:v`, then
`.iso6523-actorid-upis.` and then `d`. -/
theorem sml_candidate_host_correct (dns : Str → DnsOutcome) (s v d hres : Str)
    (h : sml_lookup dns s v d = .ok (some hres)) :
    hres = specCandidateHost s v d :=
  sml_lookup_ok_some dns s v d hres h

theorem sml_candidate_host_correct_witness :
    sml_lookup (fun _ => DnsOutcome.success) "0192".data "921605900".data "d".data =
      .ok (some "b-e258de9dbe1f34f17b55d5d3cc5e7a66.iso6523-actorid-upis.d".data) ∧
    "b-e258de9dbe1f34f17b55d5d3cc5e7a66.iso6523-actorid-upis.d".data =
      specCandidateHost "0192".data "921605900".data "d".data :=
  ⟨by rfl,
   sml_candidate_host_correct (fun _ => DnsOutcome.success) "0192".data "921605900".data
     "d".data _ (by rfl)⟩

/-- Claim C2, counterexample: on a decoded href in which the marker occurs
twice before any `#`, line 94 takes the chunk between the first and second
occurrences, not everything after the first occurrence. -/
theorem extract_two_markers_counterexample :
    pyContains markerStr "busdox-docid-qns::Abusdox-docid-qns::B".data = true ∧
    extractDocType "busdox-docid-qns::Abusdox-docid-qns::B".data = "A".data ∧
    specDocTypeOfHref "busdox-docid-qns::Abusdox-docid-qns::B".data =
      "Abusdox-docid-qns::B".data ∧
    extractDocType "busdox-docid-qns::Abusdox-docid-qns::B".data ≠
      specDocTypeOfHref "busdox-docid-qns::Abusdox-docid-qns::B".data :=
  ⟨by decide, by decide, by decide, by decide⟩

/-- Claim C2 (amended): for every decoded href string that contains the
marker `busdox-docid-qns::` exactly once — that is, the marker does not
occur again after its first occurrence — the extracted Document Type
Identifier equals everything after the marker up to (and excluding) the
first `#` character, or the remainder to end of string when no `#` is
present. -/
theorem extract_single_marker (h : Str)
    (hc : pyContains markerStr h = true)
    (hno : pyContains markerStr (afterFirst markerStr h) = false) :
    extractDocType h = specDocTypeOfHref h :=
  extractDocType_of_single_marker h hc hno

theorem extract_single_marker_witness :
    pyContains markerStr "x/busdox-docid-qns::abc#def".data = true ∧
    pyContains markerStr (afterFirst markerStr "x/busdox-docid-qns::abc#def".data) = false ∧
    extractDocType "x/busdox-docid-qns::abc#def".data =
      specDocTypeOfHref "x/busdox-docid-qns::abc#def".data :=
  ⟨by decide, by decide, extract_single_marker _ (by decide) (by decide)⟩

/-- Claim C3, counterexample: a 2xx body that is not well-formed XML but
also not UTF-8-decodable (such as the bytes `FF 3C`) makes the program
fail with the uncaught `UnicodeDecodeError` of the strict decode on line
72 — not with `ParseError`, as the claim requires for every body that is
not well-formed XML. -/
theorem smp_nonutf8_body_counterexample :
    smp_lookup (fun _ => HttpOutcome.response2xx ⟨false, .malformed⟩)
      "h".data "0192".data "921605900".data = .error .unicodeDecodeError ∧
    (Except.error SmpError.unicodeDecodeError : Except SmpError (List Str)) ≠
      .error .parseError :=
  ⟨by rfl, by simp⟩

/-- Claim C3 (amended): the fetch fails with a fetch error carrying the
underlying cause exactly when the HTTP response is non-2xx or the
transport fails; it fails with a parse error exactly when the body decodes
as UTF-8 but is not well-formed XML; it fails with the uncaught
`UnicodeDecodeError` of the strict decode on line 72 exactly when the 2xx
body is not UTF-8-decodable; and it returns normally exactly on a
UTF-8-decodable, well-formed 2xx response — no failure is swallowed or
converted into a normal return. -/
theorem smp_error_taxonomy (http : Str → HttpOutcome) (host s v : Str) :
    (∀ code : Nat,
      smp_lookup http host s v = .error (.fetchError (.httpStatus code)) ↔
        http (specSmpUrl host s v) = .statusError code) ∧
    (∀ msg : Str,
      smp_lookup http host s v = .error (.fetchError (.transport msg)) ↔
        http (specSmpUrl host s v) = .transportFailure msg) ∧
    (smp_lookup http host s v = .error .parseError ↔
      ∃ body : HttpBody, http (specSmpUrl host s v) = .response2xx body ∧
        body.utf8Decodable = true ∧ body.parse = .malformed) ∧
    (smp_lookup http host s v = .error .unicodeDecodeError ↔
      ∃ body : HttpBody, http (specSmpUrl host s v) = .response2xx body ∧
        body.utf8Decodable = false) ∧
    (∀ l : List Str, smp_lookup http host s v = .ok l →
      ∃ body : HttpBody, ∃ root : XmlElem,
        http (specSmpUrl host s v) = .response2xx body ∧
          body.utf8Decodable = true ∧ body.parse = .wellFormed root ∧
          l = docTypesLoop (findallSMR root)) := by
  rw [smp_lookup_cases http host s v]
  cases hu : http (specSmpUrl host s v) with
  | response2xx body =>
    obtain ⟨u8, parse⟩ := body
    cases u8 with
    | false => exact ⟨by simp, by simp, by simp, by simp, by simp⟩
    | true =>
      cases parse with
      | wellFormed root =>
        refine ⟨by simp, by simp, by simp, by simp, ?_⟩
        intro l hl
        simp only [if_true, Except.ok.injEq] at hl
        exact ⟨⟨true, .wellFormed root⟩, root, rfl, rfl, rfl, hl.symm⟩
      | malformed => exact ⟨by simp, by simp, by simp, by simp, by simp⟩
  | statusError c => exact ⟨by simp, by simp, by simp, by simp, by simp⟩
  | transportFailure m => exact ⟨by simp, by simp, by simp, by simp, by simp⟩

theorem smp_error_taxonomy_witness :
    smp_lookup (fun _ => HttpOutcome.statusError 404) "h".data "0192".data "921605900".data =
      .error (.fetchError (.httpStatus 404)) ∧
    smp_lookup (fun _ => HttpOutcome.response2xx ⟨true, .malformed⟩)
      "h".data "0192".data "921605900".data = .error .parseError ∧
    smp_lookup (fun _ => HttpOutcome.response2xx ⟨false, .wellFormed (.elem "r".data [] [])⟩)
      "h".data "0192".data "921605900".data = .error .unicodeDecodeError :=
  ⟨((smp_error_taxonomy (fun _ => HttpOutcome.statusError 404)
      "h".data "0192".data "921605900".data).1 404).mpr rfl,
   ((smp_error_taxonomy (fun _ => HttpOutcome.response2xx ⟨true, .malformed⟩)
      "h".data "0192".data "921605900".data).2.2.1).mpr
     ⟨⟨true, .malformed⟩, rfl, rfl, rfl⟩,
   ((smp_error_taxonomy
      (fun _ => HttpOutcome.response2xx ⟨false, .wellFormed (.elem "r".data [] [])⟩)
      "h".data "0192".data "921605900".data).2.2.2.1).mpr
     ⟨⟨false, .wellFormed (.elem "r".data [] [])⟩, rfl, rfl⟩⟩

/-- Claim C4: the resolver returns the candidate host when address
resolution of that host succeeds, returns the NotFound outcome (`none`,
not an error) when resolution fails with name-not-found, and `none` and
the candidate host are the only two normal return values. -/
theorem sml_outcomes (dns : Str → DnsOutcome) (s v d : Str) :
    (dns (specCandidateHost s v d) = .success →
      sml_lookup dns s v d = .ok (some (specCandidateHost s v d))) ∧
    (dns (specCandidateHost s v d) = .gaiNameNotFound →
      sml_lookup dns s v d = .ok none) ∧
    (∀ r : Option Str, sml_lookup dns s v d = .ok r →
      r = none ∨ r = some (specCandidateHost s v d)) := by
  refine ⟨fun h => ?_, fun h => ?_, fun r h => ?_⟩
  · rw [sml_lookup_cases, h]
  · rw [sml_lookup_cases, h]
  · rw [sml_lookup_cases] at h
    cases hdns : dns (specCandidateHost s v d) <;> rw [hdns] at h <;> simp_all

theorem sml_outcomes_witness :
    sml_lookup (fun _ => DnsOutcome.gaiNameNotFound) "0192".data "921605900".data
      "edelivery.tech.ec.europa.eu".data = .ok none :=
  (sml_outcomes (fun _ => DnsOutcome.gaiNameNotFound) "0192".data "921605900".data
    "edelivery.tech.ec.europa.eu".data).2.1 rfl

/-- Claim C5: the URL the fetch requests is exactly `http://` + host +
`/iso6523-actorid-upis::` + the percent-encoding of the key `s:v` — the
result depends on the HTTP oracle only at that URL — and the
percent-encoding leaves no raw colon in the encoded key. -/
theorem smp_url_correct (http₁ http₂ : Str → HttpOutcome) (host s v : Str)
    (hagree : http₁ (specSmpUrl host s v) = http₂ (specSmpUrl host s v)) :
    smp_lookup http₁ host s v = smp_lookup http₂ host s v ∧
    ∀ k : Str, ':' ∉ pyQuote k := by
  refine ⟨?_, colon_not_mem_pyQuote⟩
  rw [smp_lookup_cases, smp_lookup_cases, hagree]

theorem smp_url_correct_witness :
    smp_lookup
        (fun u => if u = specSmpUrl "h".data "0192".data "921605900".data
          then HttpOutcome.statusError 404 else HttpOutcome.statusError 500)
        "h".data "0192".data "921605900".data =
      smp_lookup (fun _ => HttpOutcome.statusError 404)
        "h".data "0192".data "921605900".data ∧
    ':' ∉ pyQuote "0192:921605900".data :=
  have h := smp_url_correct
    (fun u => if u = specSmpUrl "h".data "0192".data "921605900".data
      then HttpOutcome.statusError 404 else HttpOutcome.statusError 500)
    (fun _ => HttpOutcome.statusError 404)
    "h".data "0192".data "921605900".data (by simp)
  ⟨h.1, h.2 "0192:921605900".data⟩

/-- Claim C6, counterexample: a well-formed document carried in a 2xx body
that is not UTF-8-decodable (say, iso-8859-1 with an encoding declaration)
makes the program fail with the uncaught `UnicodeDecodeError` of line 72
before parsing — so a document with zero matching elements does not always
yield the empty sequence. -/
theorem smp_zero_elements_error_counterexample :
    findallSMR (XmlElem.elem "r".data [] []) = [] ∧
    smp_lookup
        (fun _ => HttpOutcome.response2xx ⟨false, .wellFormed (XmlElem.elem "r".data [] [])⟩)
        "h".data "0192".data "921605900".data = .error .unicodeDecodeError ∧
    (Except.error SmpError.unicodeDecodeError : Except SmpError (List Str)) ≠ .ok [] :=
  ⟨by rfl, by rfl, by simp⟩

/-- Claim C6 (amended): the fetch never fails because of the content of
individual `ServiceMetadataReference` elements: an element with no `href`
attribute contributes nothing, an element whose decoded href lacks the
marker contributes nothing, and a well-formed document carried in a
UTF-8-decodable 2xx body — in particular one with zero matching elements —
always yields a normal (possibly empty) list.  (A body that is not
UTF-8-decodable fails the strict decode of line 72 before parsing,
regardless of element content.) -/
theorem smp_benign_skips :
    (∀ pre post : List XmlElem, ∀ e : XmlElem, e.attr "href".data = none →
      docTypesLoop (pre ++ e :: post) = docTypesLoop (pre ++ post)) ∧
    (∀ pre post : List XmlElem, ∀ e : XmlElem,
      pyContains markerStr (unquote (e.getAttrD "href".data [])) = false →
      docTypesLoop (pre ++ e :: post) = docTypesLoop (pre ++ post)) ∧
    (∀ http : Str → HttpOutcome, ∀ host s v : Str, ∀ body : HttpBody, ∀ root : XmlElem,
      http (specSmpUrl host s v) = .response2xx body →
      body.utf8Decodable = true → body.parse = .wellFormed root →
      (∃ l : List Str, smp_lookup http host s v = .ok l) ∧
      (findallSMR root = [] → smp_lookup http host s v = .ok [])) := by
  refine ⟨fun pre post e he => ?_, fun pre post e he => ?_,
    fun http host s v body root hresp hdec hparse => ?_⟩
  · exact docTypesLoop_skip pre post e (elemDocType_of_attr_none e he)
  · exact docTypesLoop_skip pre post e (elemDocType_of_no_marker e he)
  · have hc := smp_lookup_cases http host s v
    rw [hresp] at hc
    simp only [hdec, hparse, if_true] at hc
    exact ⟨⟨_, hc⟩, fun hnil => by rw [hc, hnil]; rfl⟩

theorem smp_benign_skips_witness :
    docTypesLoop ([] ++ XmlElem.elem smrTag [] [] :: []) = docTypesLoop ([] ++ []) ∧
    docTypesLoop ([] ++ XmlElem.elem smrTag [("href".data, "nomarker".data)] [] :: []) =
      docTypesLoop ([] ++ []) ∧
    smp_lookup
        (fun _ => HttpOutcome.response2xx ⟨true, .wellFormed (XmlElem.elem "r".data [] [])⟩)
        "h".data "0192".data "921605900".data = .ok [] :=
  ⟨smp_benign_skips.1 [] [] (XmlElem.elem smrTag [] []) (by decide),
   smp_benign_skips.2.1 [] [] (XmlElem.elem smrTag [("href".data, "nomarker".data)] [])
     (by decide),
   (smp_benign_skips.2.2
     (fun _ => HttpOutcome.response2xx ⟨true, .wellFormed (XmlElem.elem "r".data [] [])⟩)
     "h".data "0192".data "921605900".data ⟨true, .wellFormed (XmlElem.elem "r".data [] [])⟩
     (XmlElem.elem "r".data [] []) rfl rfl rfl).2 (by rfl)⟩

/-- Claim C7: the list the fetch returns is the per-element extraction
mapped over the matching `ServiceMetadataReference` elements in document
order — duplicates retained, nothing sorted — and the matched elements are
exactly the descendants, at any depth, carrying the namespaced tag. -/
theorem smp_document_order (root : XmlElem) :
    docTypesLoop (findallSMR root) = (findallSMR root).filterMap elemDocType ∧
    ∀ e : XmlElem, e ∈ findallSMR root ↔ IsDesc e root ∧ e.tag = smrTag :=
  ⟨docTypesLoop_eq_filterMap (findallSMR root), fun e => mem_findallSMR root e⟩

/-- Claim C8: for scheme-id `0192` and value `921605900` with the default
locator domain, the key is `0192:921605900`, its MD5 hex digest is the
fixed hash `e258de9dbe1f34f17b55d5d3cc5e7a66`, and the candidate host is
`b-<digest>.iso6523-actorid-upis.edelivery.tech.ec.europa.eu`. -/
theorem sml_known_vector :
    specKey "0192".data "921605900".data = "0192:921605900".data ∧
    specDigest "0192:921605900".data = "e258de9dbe1f34f17b55d5d3cc5e7a66".data ∧
    sml_lookup (fun _ => DnsOutcome.success) "0192".data "921605900".data =
      .ok (some
        "b-e258de9dbe1f34f17b55d5d3cc5e7a66.iso6523-actorid-upis.edelivery.tech.ec.europa.eu".data) :=
  ⟨rfl, by rfl, by rfl⟩

/-- Claim C9: the resolver is deterministic — two calls with identical
inputs against the same DNS state give the identical outcome, and the host
returned on success is a pure function of the inputs alone: two successful
calls with identical inputs agree on the host even under different DNS
states. -/
theorem sml_deterministic :
    (∀ dns₁ dns₂ : Str → DnsOutcome, ∀ s v d : Str,
      (∀ x : Str, dns₁ x = dns₂ x) →
      sml_lookup dns₁ s v d = sml_lookup dns₂ s v d) ∧
    (∀ dns₁ dns₂ : Str → DnsOutcome, ∀ s v d h₁ h₂ : Str,
      sml_lookup dns₁ s v d = .ok (some h₁) →
      sml_lookup dns₂ s v d = .ok (some h₂) → h₁ = h₂) := by
  constructor
  · intro dns₁ dns₂ s v d hagree
    rw [sml_lookup_cases, sml_lookup_cases, hagree]
  · intro dns₁ dns₂ s v d h₁ h₂ e₁ e₂
    rw [sml_lookup_ok_some dns₁ s v d h₁ e₁, sml_lookup_ok_some dns₂ s v d h₂ e₂]

theorem sml_deterministic_witness :
    sml_lookup (fun _ => DnsOutcome.success) "0192".data "921605900".data "d".data =
      sml_lookup (fun x => (fun _ => DnsOutcome.success) x)
        "0192".data "921605900".data "d".data ∧
    "b-e258de9dbe1f34f17b55d5d3cc5e7a66.iso6523-actorid-upis.d".data =
      "b-e258de9dbe1f34f17b55d5d3cc5e7a66.iso6523-actorid-upis.d".data :=
  ⟨sml_deterministic.1 (fun _ => DnsOutcome.success)
     (fun x => (fun _ => DnsOutcome.success) x) "0192".data "921605900".data "d".data
     (fun _ => rfl),
   sml_deterministic.2 (fun _ => DnsOutcome.success)
     (fun x => if x = "b-e258de9dbe1f34f17b55d5d3cc5e7a66.iso6523-actorid-upis.d".data
       then DnsOutcome.success else DnsOutcome.gaiNameNotFound)
     "0192".data "921605900".data "d".data _ _ (by rfl) (by rfl)⟩

/-- Claim C10: every string in the list the fetch returns contains no `#`
character; and an element whose decoded href ends exactly at the marker,
or whose marker is immediately followed by `#`, contributes the empty
string as a Document Type Identifier instead of being skipped. -/
theorem smp_no_hash_in_results :
    (∀ http : Str → HttpOutcome, ∀ host s v : Str, ∀ l : List Str, ∀ x : Str,
      smp_lookup http host s v = .ok l → x ∈ l → '#' ∉ x) ∧
    (∀ e : XmlElem,
      pyContains markerStr (unquote (e.getAttrD "href".data [])) = true →
      (afterFirst markerStr (unquote (e.getAttrD "href".data [])) = [] ∨
        (afterFirst markerStr (unquote (e.getAttrD "href".data []))).head? = some '#') →
      elemDocType e = some []) := by
  constructor
  · intro http host s v l x hok hmem
    have hc := (smp_lookup_cases http host s v).symm.trans hok
    cases hu : http (specSmpUrl host s v) with
    | response2xx body =>
      rw [hu] at hc
      obtain ⟨u8, parse⟩ := body
      cases u8 with
      | false => simp at hc
      | true =>
        cases parse with
        | wellFormed root =>
          simp only [if_true, Except.ok.injEq] at hc
          subst hc
          rw [docTypesLoop_eq_filterMap] at hmem
          obtain ⟨e, _, he⟩ := List.mem_filterMap.mp hmem
          exact not_hash_of_elemDocType_some e x he
        | malformed => simp at hc
    | statusError c => rw [hu] at hc; simp at hc
    | transportFailure m => rw [hu] at hc; simp at hc
  · intro e hcond hcase
    have hempty := extractDocType_empty_cases _ hcond hcase
    unfold elemDocType
    simp [hcond, hempty]

theorem smp_no_hash_in_results_witness :
    smp_lookup
        (fun _ => HttpOutcome.response2xx ⟨true, .wellFormed
          (XmlElem.elem "r".data []
            [XmlElem.elem smrTag [("href".data, "busdox-docid-qns%3A%3AX%23y".data)] []])⟩)
        "h".data "0192".data "921605900".data = .ok ["X".data] ∧
    '#' ∉ "X".data ∧
    elemDocType
        (XmlElem.elem smrTag [("href".data, "busdox-docid-qns%3A%3A".data)] []) =
      some [] :=
  ⟨by rfl,
   smp_no_hash_in_results.1
     (fun _ => HttpOutcome.response2xx ⟨true, .wellFormed
       (XmlElem.elem "r".data []
         [XmlElem.elem smrTag [("href".data, "busdox-docid-qns%3A%3AX%23y".data)] []])⟩)
     "h".data "0192".data "921605900".data ["X".data] "X".data (by rfl) (by decide),
   smp_no_hash_in_results.2
     (XmlElem.elem smrTag [("href".data, "busdox-docid-qns%3A%3A".data)] [])
     (by decide) (Or.inl (by decide))⟩
